import Mathlib

/-!
# Verification of the inventory-api CRUD layer

Shallow embedding of the pure parts of the `inventory_api` Python package:

* `inventory_api/crud/cosmos_serialization.py` — `normalize_category`,
  `prepare_decimals_for_cosmos_db`;
* `inventory_api/exceptions.py` — `handle_cosmos_error`;
* `inventory_api/crud/product_crud.py` / `product_crud_batch.py` — the
  stamping performed by product creation, the patch-operation construction
  of batch update, and the per-category fan-out helper
  `_execute_batch_by_category`.

Python strings are modelled as lists of Unicode code points (`PyStr`);
`str.lower` is modelled on the ASCII letters (the only case mapping the
repository's data ever exercises) and `str.strip` by dropping the ASCII
whitespace code points from both ends, which is how CPython treats the
inputs appearing in this code base.  Python values reachable from the
serialization helpers are modelled by the inductive `PyVal`; Python
`float(decimal)` is modelled as a tag change (the numeric value is kept as
the same rational, since no claim depends on rounding).  Exceptions are
modelled as values: a Python function that always raises is embedded as a
function returning the raised error.
-/

set_option linter.unusedVariables false

namespace InventoryApi

/-- A Python `str`, as its sequence of Unicode code points. -/
abbrev PyStr := List Nat

/-- Code points of a Lean string literal, used to transcribe the Python
string literals appearing in the source. -/
def strToCodes (s : String) : PyStr :=
  s.data.map Char.toNat

/-- `str.isspace`-style test for the ASCII whitespace code points that
`str.strip()` removes (space, tab, LF, VT, FF, CR). -/
def pyIsSpace (c : Nat) : Bool :=
  c == 32 || c == 9 || c == 10 || c == 11 || c == 12 || c == 13

/-- Case mapping of a single code point under `str.lower`, restricted to
ASCII: `A`–`Z` (65–90) map to `a`–`z` (97–122), everything else is kept. -/
def pyLowerChar (c : Nat) : Nat :=
  if 65 ≤ c ∧ c ≤ 90 then c + 32 else c

/-- `str.lower`. -/
def pyLower (s : PyStr) : PyStr :=
  s.map pyLowerChar

/-- Strip the leading whitespace of a string (`str.lstrip`). -/
def stripLeft (s : PyStr) : PyStr :=
  s.dropWhile pyIsSpace

/-- Strip the trailing whitespace of a string (`str.rstrip`). -/
def stripRight (s : PyStr) : PyStr :=
  ((s.reverse).dropWhile pyIsSpace).reverse

/-- `str.strip()`: whitespace removed from both ends. -/
def pyStrip (s : PyStr) : PyStr :=
  stripRight (stripLeft s)

/-- `cosmos_serialization.normalize_category`.  The Python function raises
`ValueError("Category must be a non-empty string")` when `category` is
falsy (for a `str` argument: when it is empty) and otherwise returns
`category.lower().strip()`; the raise is embedded as `Except.error`.  The
`isinstance(category, str)` half of the guard is discharged by the
embedding's type. -/
def normalize_category (category : PyStr) : Except PyStr PyStr :=
  if category.isEmpty then
    .error (strToCodes "Category must be a non-empty string")
  else
    .ok (pyStrip (pyLower category))

/-! ## Lemmas about the string model -/

theorem pyIsSpace_pyLowerChar (c : Nat) : pyIsSpace (pyLowerChar c) = pyIsSpace c := by
  unfold pyLowerChar pyIsSpace
  split
  · rename_i h
    rw [Bool.eq_iff_iff]
    simp only [Bool.or_eq_true, beq_iff_eq]
    omega
  · rfl

theorem pyLowerChar_idem (c : Nat) : pyLowerChar (pyLowerChar c) = pyLowerChar c := by
  unfold pyLowerChar
  split
  · rename_i h
    rw [if_neg]
    omega
  · rfl

theorem pyLower_idem (s : PyStr) : pyLower (pyLower s) = pyLower s := by
  unfold pyLower
  rw [List.map_map]
  exact List.map_congr_left fun c _ => pyLowerChar_idem c

theorem pyIsSpace_comp_pyLowerChar : pyIsSpace ∘ pyLowerChar = pyIsSpace :=
  funext pyIsSpace_pyLowerChar

theorem stripLeft_pyLower (s : PyStr) : stripLeft (pyLower s) = pyLower (stripLeft s) := by
  unfold stripLeft pyLower
  rw [List.dropWhile_map, pyIsSpace_comp_pyLowerChar]

theorem stripRight_pyLower (s : PyStr) : stripRight (pyLower s) = pyLower (stripRight s) := by
  unfold stripRight pyLower
  rw [← List.map_reverse, List.dropWhile_map, pyIsSpace_comp_pyLowerChar, List.map_reverse]

theorem pyStrip_pyLower (s : PyStr) : pyStrip (pyLower s) = pyLower (pyStrip s) := by
  unfold pyStrip
  rw [stripLeft_pyLower, stripRight_pyLower]

theorem stripLeft_idem (s : PyStr) : stripLeft (stripLeft s) = stripLeft s :=
  List.dropWhile_idempotent pyIsSpace s

theorem stripRight_idem (s : PyStr) : stripRight (stripRight s) = stripRight s := by
  unfold stripRight
  rw [List.reverse_reverse, List.dropWhile_idempotent]

theorem stripLeft_stripRight_comm (s : PyStr) :
    stripLeft (stripRight s) = stripRight (stripLeft s) := by
  induction s with
  | nil => rfl
  | cons a t ih =>
    by_cases hd : (t.reverse.dropWhile pyIsSpace).isEmpty = true
    · have hall : ∀ c ∈ t, pyIsSpace c = true := by
        intro c hc
        have := (List.dropWhile_eq_nil_iff).1 (List.isEmpty_iff.1 hd) c (by
          simpa using hc)
        exact this
      have htR : stripRight (a :: t) = ([a].dropWhile pyIsSpace).reverse := by
        unfold stripRight
        rw [List.reverse_cons, List.dropWhile_append, if_pos hd]
      cases ha : pyIsSpace a with
      | true =>
        have h1 : stripLeft (stripRight (a :: t)) = [] := by
          rw [htR]
          simp [List.dropWhile_cons, ha, stripLeft]
        have h2 : stripRight (stripLeft (a :: t)) = [] := by
          have : stripLeft (a :: t) = stripLeft t := by
            simp [stripLeft, List.dropWhile_cons, ha]
          rw [this]
          have : stripLeft t = [] := List.dropWhile_eq_nil_iff.2 hall
          rw [this]
          rfl
        rw [h1, h2]
      | false =>
        have h1 : stripRight (a :: t) = [a] := by
          rw [htR]
          simp [List.dropWhile_cons, ha]
        have h2 : stripLeft (a :: t) = a :: t := by
          simp [stripLeft, List.dropWhile_cons, ha]
        rw [h1, h2]
        have h3 : stripLeft [a] = [a] := by
          simp [stripLeft, List.dropWhile_cons, ha]
        rw [h3]
        unfold stripRight
        rw [List.reverse_cons, List.dropWhile_append, if_pos hd]
        simp [List.dropWhile_cons, ha]
    · have htR : stripRight (a :: t) = a :: stripRight t := by
        unfold stripRight
        rw [List.reverse_cons, List.dropWhile_append, if_neg hd]
        simp
      cases ha : pyIsSpace a with
      | true =>
        have h2 : stripLeft (a :: t) = stripLeft t := by
          simp [stripLeft, List.dropWhile_cons, ha]
        rw [htR, h2, ← ih]
        simp [stripLeft, List.dropWhile_cons, ha]
      | false =>
        have h2 : stripLeft (a :: t) = a :: t := by
          simp [stripLeft, List.dropWhile_cons, ha]
        rw [h2, htR]
        simp [stripLeft, List.dropWhile_cons, ha]

theorem pyStrip_idem (s : PyStr) : pyStrip (pyStrip s) = pyStrip s := by
  unfold pyStrip
  rw [stripLeft_stripRight_comm (stripLeft s), stripLeft_idem, stripRight_idem]

theorem stripLeft_spaces_append (w s : PyStr) (h : ∀ c ∈ w, pyIsSpace c = true) :
    stripLeft (w ++ s) = stripLeft s :=
  List.dropWhile_append_of_pos h

theorem stripRight_append_spaces (s w : PyStr) (h : ∀ c ∈ w, pyIsSpace c = true) :
    stripRight (s ++ w) = stripRight s := by
  unfold stripRight
  rw [List.reverse_append, List.dropWhile_append_of_pos (by simpa using h)]

theorem pyStrip_surround_spaces (w₁ s w₂ : PyStr)
    (h₁ : ∀ c ∈ w₁, pyIsSpace c = true) (h₂ : ∀ c ∈ w₂, pyIsSpace c = true) :
    pyStrip (w₁ ++ s ++ w₂) = pyStrip s := by
  unfold pyStrip
  rw [List.append_assoc, stripLeft_spaces_append _ _ h₁, ← stripLeft_stripRight_comm,
    stripRight_append_spaces _ _ h₂, stripLeft_stripRight_comm]

/-! ## Claims C3 and C10: `normalize_category` -/

/-- **C3, counterexample.**  `normalize_category` is not idempotent as
claimed: on the whitespace-only string `" "` it succeeds with result `""`
(the empty string), but applied again to that result it raises instead of
succeeding, because the emptiness check happens before trimming. -/
theorem normalize_category_idempotence_fails_on_whitespace :
    normalize_category (strToCodes " ") = .ok [] ∧
    normalize_category [] ≠ .ok [] := by
  refine ⟨rfl, fun h => ?_⟩
  simp [normalize_category, strToCodes] at h

/-- **C3, amended.**  `normalize_category` is idempotent on every input
whose normalization succeeds *with a non-empty result* (the sole failures
of idempotence are the whitespace-only strings, which normalize to `""`,
on which `normalize_category` then raises); it is case-insensitive and
insensitive to leading/trailing whitespace on non-empty inputs; and
`normalize_category " Gadgets " = "gadgets"`. -/
theorem normalize_category_idempotent_insensitive :
    (∀ s r : PyStr, normalize_category s = .ok r → r ≠ [] →
        normalize_category r = .ok r) ∧
    (∀ s t : PyStr, s ≠ [] → t ≠ [] → pyLower s = pyLower t →
        normalize_category s = normalize_category t) ∧
    (∀ s w₁ w₂ : PyStr, s ≠ [] →
        (∀ c ∈ w₁, pyIsSpace c = true) → (∀ c ∈ w₂, pyIsSpace c = true) →
        normalize_category (w₁ ++ s ++ w₂) = normalize_category s) ∧
    normalize_category (strToCodes " Gadgets ") = .ok (strToCodes "gadgets") := by
  refine ⟨?_, ?_, ?_, rfl⟩
  · intro s r h hr
    unfold normalize_category at h ⊢
    by_cases hs : s.isEmpty
    · rw [if_pos hs] at h
      exact absurd h (by simp)
    · rw [if_neg hs] at h
      have hr' : r = pyStrip (pyLower s) := by
        cases h
        rfl
      rw [if_neg (by simpa [List.isEmpty_iff] using hr)]
      have hlow : pyLower r = r := by
        rw [hr', pyStrip_pyLower, pyLower_idem, ← pyStrip_pyLower]
      rw [hlow, hr', pyStrip_idem]
  · intro s t hs ht hst
    unfold normalize_category
    rw [if_neg (by simpa [List.isEmpty_iff] using hs),
      if_neg (by simpa [List.isEmpty_iff] using ht), hst]
  · intro s w₁ w₂ hs h₁ h₂
    unfold normalize_category
    have hne : w₁ ++ s ++ w₂ ≠ [] := by
      simp [List.append_eq_nil]
      intro _ h _
      exact hs h
    rw [if_neg (by simpa [List.isEmpty_iff] using hne),
      if_neg (by simpa [List.isEmpty_iff] using hs)]
    unfold pyLower
    rw [List.map_append, List.map_append]
    have h₁' : ∀ c ∈ w₁.map pyLowerChar, pyIsSpace c = true := by
      intro c hc
      rcases List.mem_map.1 hc with ⟨a, ha, rfl⟩
      rw [pyIsSpace_pyLowerChar]
      exact h₁ a ha
    have h₂' : ∀ c ∈ w₂.map pyLowerChar, pyIsSpace c = true := by
      intro c hc
      rcases List.mem_map.1 hc with ⟨a, ha, rfl⟩
      rw [pyIsSpace_pyLowerChar]
      exact h₂ a ha
    rw [pyStrip_surround_spaces _ _ _ h₁' h₂']

/-- Witness for C3's amended theorem: instantiated on `" Gadgets "`, whose
normalization is the non-empty `"gadgets"`, normalizing again succeeds and
is a fixed point. -/
theorem normalize_category_idempotent_witness :
    normalize_category (strToCodes "gadgets") = .ok (strToCodes "gadgets") :=
  normalize_category_idempotent_insensitive.1 (strToCodes " Gadgets ")
    (strToCodes "gadgets") rfl (by decide)

/-- **C10.**  On any non-empty, whitespace-only string, `normalize_category`
returns the empty string `""` rather than raising (the emptiness check
precedes trimming); in particular it maps `" "` to `""`, even though the
empty string itself is rejected with `ValueError`. -/
theorem normalize_category_whitespace_only_returns_empty :
    (∀ s : PyStr, s ≠ [] → (∀ c ∈ s, pyIsSpace c = true) →
        normalize_category s = .ok []) ∧
    normalize_category (strToCodes " ") = .ok [] ∧
    normalize_category [] = .error (strToCodes "Category must be a non-empty string") := by
  refine ⟨?_, rfl, rfl⟩
  intro s hs hsp
  unfold normalize_category
  rw [if_neg (by simpa [List.isEmpty_iff] using hs)]
  have hlow : ∀ c ∈ pyLower s, pyIsSpace c = true := by
    intro c hc
    rcases List.mem_map.1 hc with ⟨a, ha, rfl⟩
    rw [pyIsSpace_pyLowerChar]
    exact hsp a ha
  have h1 : stripLeft (pyLower s) = [] := List.dropWhile_eq_nil_iff.2 hlow
  rw [pyStrip, h1]
  rfl

/-- Witness for C10: the single-space string. -/
theorem normalize_category_whitespace_witness :
    normalize_category [32] = .ok [] :=
  normalize_category_whitespace_only_returns_empty.1 [32] (by decide) (by decide)

/-! ## The Python value model -/

/-- The Python values reachable from the serialization helpers: scalars,
`decimal.Decimal`, `float`, lists, and string-keyed dicts (a dict is its
insertion-ordered association list).  `float(d)` for a decimal `d` is
modelled as retagging the same rational — no claim depends on the rounding
performed by the actual conversion. -/
inductive PyVal : Type where
  | decimal (q : ℚ)
  | float (q : ℚ)
  | str (s : PyStr)
  | int (n : Int)
  | bool (b : Bool)
  | pynone
  | list (xs : List PyVal)
  | dict (kvs : List (PyStr × PyVal))

/-- A Python dict with string keys, in insertion order. -/
abbrev PyDict := List (PyStr × PyVal)

mutual

/-- The transformation `prepare_decimals_for_cosmos_db` applies to the
value of each dict entry: `Decimal` → `float`; nested dict → recurse;
list → element-wise `transformListElem`; anything else unchanged. -/
def transformDictValue : PyVal → PyVal
  | .decimal q => .float q
  | .dict kvs => .dict (prepare_decimals_for_cosmos_db kvs)
  | .list xs => .list (transformListElems xs)
  | v => v

/-- The list comprehension of `prepare_decimals_for_cosmos_db`, applied to
every element of a list-valued dict entry. -/
def transformListElems : List PyVal → List PyVal
  | [] => []
  | x :: rest => transformListElem x :: transformListElems rest

/-- One element of the list comprehension: a dict element is recursed
into, a `Decimal` element becomes a `float`, and **any other element —
including a nested list — is kept unchanged**. -/
def transformListElem : PyVal → PyVal
  | .dict kvs => .dict (prepare_decimals_for_cosmos_db kvs)
  | .decimal q => .float q
  | x => x

/-- `cosmos_serialization.prepare_decimals_for_cosmos_db`: iterates over
the entries of a dict, rewriting each value by `transformDictValue`.  The
Python function mutates `data` in place and returns it; the embedding
returns the resulting dict. -/
def prepare_decimals_for_cosmos_db : PyDict → PyDict
  | [] => []
  | (k, v) :: rest => (k, transformDictValue v) :: prepare_decimals_for_cosmos_db rest

end

mutual

/-- Whether a `Decimal` occurs anywhere in a value, at any nesting depth. -/
def containsDecimal : PyVal → Bool
  | .decimal _ => true
  | .dict kvs => containsDecimalDict kvs
  | .list xs => containsDecimalElems xs
  | _ => false

/-- Whether a `Decimal` occurs anywhere in a dict. -/
def containsDecimalDict : PyDict → Bool
  | [] => false
  | (_, v) :: rest => containsDecimal v || containsDecimalDict rest

/-- Whether a `Decimal` occurs anywhere in a list of values. -/
def containsDecimalElems : List PyVal → Bool
  | [] => false
  | x :: rest => containsDecimal x || containsDecimalElems rest

end

mutual

/-- `true` when no list occurs as a direct element of a list anywhere in
the value (dicts may still contain lists, and lists may contain dicts). -/
def listNotInList : PyVal → Bool
  | .dict kvs => listNotInListDict kvs
  | .list xs => listNotInListElems xs
  | _ => true

/-- `listNotInList` over the values of a dict. -/
def listNotInListDict : PyDict → Bool
  | [] => true
  | (_, v) :: rest => listNotInList v && listNotInListDict rest

/-- `listNotInList` over the elements of a list: an element that is itself
a list violates the property outright. -/
def listNotInListElems : List PyVal → Bool
  | [] => true
  | .list _ :: _ => false
  | x :: rest => listNotInList x && listNotInListElems rest

end

mutual

theorem transformDictValue_noDecimal (v : PyVal) (h : listNotInList v = true) :
    containsDecimal (transformDictValue v) = false := by
  match v with
  | .decimal q => rfl
  | .float q => rfl
  | .str s => rfl
  | .int n => rfl
  | .bool b => rfl
  | .pynone => rfl
  | .dict kvs =>
    simp only [transformDictValue, containsDecimal]
    exact prepare_noDecimal kvs (by simpa [listNotInList] using h)
  | .list xs =>
    simp only [transformDictValue, containsDecimal]
    exact transformListElems_noDecimal xs (by simpa [listNotInList] using h)

theorem transformListElems_noDecimal (xs : List PyVal)
    (h : listNotInListElems xs = true) :
    containsDecimalElems (transformListElems xs) = false := by
  match xs with
  | [] => rfl
  | x :: rest =>
    match x with
    | .list _ => exact absurd h (by simp [listNotInListElems])
    | .decimal q =>
      simp only [transformListElems, transformListElem, containsDecimalElems,
        containsDecimal, Bool.false_or]
      exact transformListElems_noDecimal rest (by
        simpa [listNotInListElems, listNotInList] using h)
    | .dict kvs =>
      simp only [transformListElems, transformListElem, containsDecimalElems,
        containsDecimal, Bool.or_eq_false_iff]
      simp only [listNotInListElems, listNotInList, Bool.and_eq_true] at h
      exact ⟨prepare_noDecimal kvs h.1, transformListElems_noDecimal rest h.2⟩
    | .float q =>
      simp only [transformListElems, transformListElem, containsDecimalElems,
        containsDecimal, Bool.false_or]
      exact transformListElems_noDecimal rest (by
        simpa [listNotInListElems, listNotInList] using h)
    | .str s =>
      simp only [transformListElems, transformListElem, containsDecimalElems,
        containsDecimal, Bool.false_or]
      exact transformListElems_noDecimal rest (by
        simpa [listNotInListElems, listNotInList] using h)
    | .int n =>
      simp only [transformListElems, transformListElem, containsDecimalElems,
        containsDecimal, Bool.false_or]
      exact transformListElems_noDecimal rest (by
        simpa [listNotInListElems, listNotInList] using h)
    | .bool b =>
      simp only [transformListElems, transformListElem, containsDecimalElems,
        containsDecimal, Bool.false_or]
      exact transformListElems_noDecimal rest (by
        simpa [listNotInListElems, listNotInList] using h)
    | .pynone =>
      simp only [transformListElems, transformListElem, containsDecimalElems,
        containsDecimal, Bool.false_or]
      exact transformListElems_noDecimal rest (by
        simpa [listNotInListElems, listNotInList] using h)

theorem prepare_noDecimal (kvs : PyDict) (h : listNotInListDict kvs = true) :
    containsDecimalDict (prepare_decimals_for_cosmos_db kvs) = false := by
  match kvs with
  | [] => rfl
  | (k, v) :: rest =>
    rw [listNotInListDict, Bool.and_eq_true] at h
    simp only [prepare_decimals_for_cosmos_db, containsDecimalDict,
      Bool.or_eq_false_iff]
    exact ⟨transformDictValue_noDecimal v h.1, prepare_noDecimal rest h.2⟩

end

/-! ## Claim C2: `prepare_decimals_for_cosmos_db` -/

/-- **C2, counterexample.**  `prepare_decimals_for_cosmos_db` does *not*
convert every `Decimal` at every nesting depth: a `Decimal` inside a list
that is itself an element of a list is left untouched, because the list
comprehension only recurses into dict elements and converts decimal
elements, keeping any other element — including a nested list — as is.
On the input `{"a": [[Decimal(1)]]}` the output still contains a
`Decimal`. -/
theorem prepare_decimals_misses_list_in_list :
    containsDecimalDict
      (prepare_decimals_for_cosmos_db
        [(strToCodes "a", .list [.list [.decimal 1]])]) = true := rfl

/-- **C2, amended.**  Provided no list occurs directly inside another list
in the input (which holds for every product record this system builds),
the structure returned by `prepare_decimals_for_cosmos_db` contains no
`Decimal` at any nesting depth: every `Decimal` value of a dict, nested
arbitrarily through dicts and through single levels of list, is converted
to a floating-point number.  (Without that proviso the property fails, see
the counterexample.) -/
theorem prepare_decimals_removes_all (kvs : PyDict)
    (h : listNotInListDict kvs = true) :
    containsDecimalDict (prepare_decimals_for_cosmos_db kvs) = false :=
  prepare_noDecimal kvs h

/-- Witness for C2's amended theorem: a record with a top-level decimal, a
decimal in a nested dict, and decimals inside a list (directly and inside
a dict element of the list) comes out decimal-free. -/
theorem prepare_decimals_removes_all_witness :
    listNotInListDict
        [(strToCodes "price", .decimal (999 / 100)),
         (strToCodes "nested", .dict [(strToCodes "d", .decimal 2)]),
         (strToCodes "tags",
           .list [.decimal 3, .dict [(strToCodes "e", .decimal 4)],
             .str (strToCodes "x")])] = true ∧
    containsDecimalDict
      (prepare_decimals_for_cosmos_db
        [(strToCodes "price", .decimal (999 / 100)),
         (strToCodes "nested", .dict [(strToCodes "d", .decimal 2)]),
         (strToCodes "tags",
           .list [.decimal 3, .dict [(strToCodes "e", .decimal 4)],
             .str (strToCodes "x")])]) = false :=
  ⟨rfl, prepare_decimals_removes_all _ rfl⟩

/-! ## The error translator (`inventory_api/exceptions.py`) -/

/-- Whether `needle` occurs as a contiguous prefix of `haystack`
(Python `str.startswith`, used to build the substring test below). -/
def codesStartWith : PyStr → PyStr → Bool
  | [], _ => true
  | _ :: _, [] => false
  | a :: as, b :: bs => a == b && codesStartWith as bs

/-- Python's `needle in haystack` substring test. -/
def codesContain (needle : PyStr) : PyStr → Bool
  | [] => codesStartWith needle []
  | h :: t => codesStartWith needle (h :: t) || codesContain needle t

/-- The exceptions `handle_cosmos_error` distinguishes:
`CosmosHttpResponseError` (with its `status_code` and its message, which
stands for both `e.message` and `str(e)`), `CosmosBatchOperationError`
(with `getattr(e, 'status_code', None)` and `str(e)`), and any other
exception. -/
inductive CosmosException : Type where
  | http (status_code : Option Nat) (message : PyStr)
  | batch (status_code : Option Nat) (message : PyStr)
  | other (message : PyStr)
  deriving DecidableEq

/-- The `**context` keyword arguments read by `handle_cosmos_error`
(`context.get(...)`); a field is `none` when the caller did not supply it
or supplied Python `None`. -/
structure ErrorContext : Type where
  product_id : Option PyStr := none
  category : Option PyStr := none
  sku : Option PyStr := none
  product_name : Option PyStr := none
  deriving DecidableEq

/-- The application-error taxonomy defined in `exceptions.py`.  Note that
the module defines exactly these classes — in particular it defines **no
connection-error variant** (`DatabaseConnectionError` is imported by the
test suite but exists nowhere). -/
inductive AppError : Type where
  | productNotFound (message : PyStr)
  | productAlreadyExists (message : PyStr)
  | databaseError (message : PyStr) (original_exception : Option CosmosException)
  | preconditionFailed (message : PyStr)
  | productDuplicateSKU (message : PyStr)
  deriving DecidableEq

/-- `f"Product with SKU '{sku}' already exists"`. -/
def skuExistsMsg (sku : PyStr) : PyStr :=
  strToCodes "Product with SKU '" ++ sku ++ strToCodes "' already exists"

/-- `f"Product '{product_name}' already exists"`. -/
def nameExistsMsg (product_name : PyStr) : PyStr :=
  strToCodes "Product '" ++ product_name ++ strToCodes "' already exists"

/-- `f"Product with ID '{product_id}' and category '{category}' not found"`. -/
def notFoundMsg (product_id category : PyStr) : PyStr :=
  strToCodes "Product with ID '" ++ product_id ++ strToCodes "' and category '" ++
    category ++ strToCodes "' not found"

/-- `f"Product with ID '{product_id}' has been modified since last retrieved (ETag mismatch)."`. -/
def etagMismatchMsg (product_id : PyStr) : PyStr :=
  strToCodes "Product with ID '" ++ product_id ++
    strToCodes "' has been modified since last retrieved (ETag mismatch)."

/-- `f"Batch operation error during {operation}: {str(e)}"`. -/
def batchErrorMsg (operation message : PyStr) : PyStr :=
  strToCodes "Batch operation error during " ++ operation ++ strToCodes ": " ++ message

/-- `f"An unexpected error occurred during {operation} operation."`. -/
def unexpectedErrorMsg (operation : PyStr) : PyStr :=
  strToCodes "An unexpected error occurred during " ++ operation ++
    strToCodes " operation."

/-- Python `str` applied to the `status_code` attribute (either an int or
`None`) when it is interpolated into the default error message. -/
def renderStatusCode : Option Nat → PyStr
  | none => strToCodes "None"
  | some n => strToCodes (toString n)

/-- `f"Cosmos DB error during {operation}: Status Code {e.status_code}, Message: {e.message}"`. -/
def cosmosDefaultMsg (operation : PyStr) (status_code : Option Nat) (message : PyStr) : PyStr :=
  strToCodes "Cosmos DB error during " ++ operation ++ strToCodes ": Status Code " ++
    renderStatusCode status_code ++ strToCodes ", Message: " ++ message

/-- The shared 409 logic of `handle_cosmos_error` (identical for the batch
branch and the HTTP 409/create-update branch): scan the lower-cased
message for the SKU unique-index markers, then prefer the SKU from the
context (Python truthiness: an absent, `None`, or empty `sku` falls back
to the product name). -/
def conflict409Error (message : PyStr) (ctx : ErrorContext) : AppError :=
  let error_message := pyLower message
  if codesContain (strToCodes "unique index constraint") error_message &&
      codesContain (strToCodes "/sku") error_message then
    .productDuplicateSKU (skuExistsMsg (ctx.sku.getD (strToCodes "unknown")))
  else
    match ctx.sku with
    | some sku =>
      if sku.isEmpty then
        .productAlreadyExists (nameExistsMsg (ctx.product_name.getD (strToCodes "unknown")))
      else
        .productAlreadyExists (skuExistsMsg sku)
    | none =>
      .productAlreadyExists (nameExistsMsg (ctx.product_name.getD (strToCodes "unknown")))

/-- `exceptions.handle_cosmos_error`.  The Python function's declared
result is `None`, but every control path ends in a `raise`; the embedding
returns `some err` for a path raising `err` and would return `none` for a
path falling off the end — the theorems show the latter never happens. -/
def handle_cosmos_error (e : CosmosException) (operation : PyStr)
    (ctx : ErrorContext) : Option AppError :=
  match e with
  | .batch status_code message =>
    if status_code == some 409 then
      some (conflict409Error message ctx)
    else
      some (.databaseError (batchErrorMsg operation message) (some e))
  | .other _ =>
    some (.databaseError (unexpectedErrorMsg operation) (some e))
  | .http status_code message =>
    if status_code == some 404 then
      if [strToCodes "update", strToCodes "delete", strToCodes "get"].contains operation then
        some (.productNotFound
          (notFoundMsg (ctx.product_id.getD (strToCodes "unknown"))
            (ctx.category.getD (strToCodes "unknown"))))
      else
        some (.databaseError (cosmosDefaultMsg operation status_code message) (some e))
    else if status_code == some 409 then
      if [strToCodes "create", strToCodes "update"].contains operation then
        some (conflict409Error message ctx)
      else
        some (.databaseError (cosmosDefaultMsg operation status_code message) (some e))
    else if status_code == some 412 then
      if operation == strToCodes "update" then
        some (.preconditionFailed (etagMismatchMsg (ctx.product_id.getD (strToCodes "unknown"))))
      else
        some (.databaseError (cosmosDefaultMsg operation status_code message) (some e))
    else
      some (.databaseError (cosmosDefaultMsg operation status_code message) (some e))

/-! ## Claims C4, C5, C6, C8: error translation -/

/-- **C4, counterexample.**  A `CosmosBatchOperationError` carrying status
code 412 passed with operation `"update"` is *not* translated to
`PreconditionFailedError`: the batch branch of `handle_cosmos_error` only
special-cases status 409 and sends every other batch status — 412
included — to the generic `DatabaseError`. -/
theorem batch_412_update_gives_database_error :
    handle_cosmos_error
        (.batch (some 412) (strToCodes "precondition failed"))
        (strToCodes "update") ({} : ErrorContext) =
      some (.databaseError
        (batchErrorMsg (strToCodes "update") (strToCodes "precondition failed"))
        (some (.batch (some 412) (strToCodes "precondition failed")))) := rfl

/-- **C4, amended.**  A single-item `CosmosHttpResponseError` with status
412 and operation `"update"` is always translated to
`PreconditionFailedError` (etag mismatch); a `CosmosBatchOperationError`
with status 412, however, is translated to the generic `DatabaseError`
(only 409 is special-cased on the batch path). -/
theorem http_412_update_gives_precondition_failed :
    (∀ (m : PyStr) (ctx : ErrorContext),
      handle_cosmos_error (.http (some 412) m) (strToCodes "update") ctx =
        some (.preconditionFailed
          (etagMismatchMsg (ctx.product_id.getD (strToCodes "unknown"))))) ∧
    (∀ (m : PyStr) (ctx : ErrorContext),
      handle_cosmos_error (.batch (some 412) m) (strToCodes "update") ctx =
        some (.databaseError (batchErrorMsg (strToCodes "update") m)
          (some (.batch (some 412) m)))) :=
  ⟨fun m ctx => rfl, fun m ctx => rfl⟩

/-- Witness for C4's amended theorem at a concrete 412 update error. -/
theorem http_412_update_witness :
    handle_cosmos_error (.http (some 412) (strToCodes "stale"))
        (strToCodes "update") ({ product_id := some (strToCodes "p1") } : ErrorContext) =
      some (.preconditionFailed (etagMismatchMsg (strToCodes "p1"))) :=
  http_412_update_gives_precondition_failed.1 (strToCodes "stale")
    { product_id := some (strToCodes "p1") }

/-- **C5.**  Any 409 storage error passed with operation `"create"` or
`"update"` (single-item or batch): when the lower-cased message contains
both `"unique index constraint"` and `"/sku"`, the translator raises
`ProductDuplicateSKUError`; otherwise it raises
`ProductAlreadyExistsError`, whose message names the SKU when the context
supplies a (non-empty, hence truthy) one and the product name otherwise. -/
theorem conflict_409_classification
    (e : CosmosException) (operation m : PyStr) (ctx : ErrorContext)
    (he : e = .http (some 409) m ∨ e = .batch (some 409) m)
    (hop : operation = strToCodes "create" ∨ operation = strToCodes "update") :
    (codesContain (strToCodes "unique index constraint") (pyLower m) = true →
      codesContain (strToCodes "/sku") (pyLower m) = true →
      handle_cosmos_error e operation ctx =
        some (.productDuplicateSKU (skuExistsMsg (ctx.sku.getD (strToCodes "unknown"))))) ∧
    ((codesContain (strToCodes "unique index constraint") (pyLower m) = false ∨
        codesContain (strToCodes "/sku") (pyLower m) = false) →
      (∀ sku, ctx.sku = some sku → sku ≠ [] →
        handle_cosmos_error e operation ctx =
          some (.productAlreadyExists (skuExistsMsg sku))) ∧
      ((ctx.sku = none ∨ ctx.sku = some []) →
        handle_cosmos_error e operation ctx =
          some (.productAlreadyExists
            (nameExistsMsg (ctx.product_name.getD (strToCodes "unknown")))))) := by
  have hred : handle_cosmos_error e operation ctx = some (conflict409Error m ctx) := by
    rcases he with rfl | rfl
    · rcases hop with rfl | rfl <;> rfl
    · rfl
  rw [hred]
  constructor
  · intro h1 h2
    unfold conflict409Error
    rw [if_pos (by rw [h1, h2]; rfl)]
  · intro hneg
    have hcond : (codesContain (strToCodes "unique index constraint") (pyLower m) &&
        codesContain (strToCodes "/sku") (pyLower m)) = false := by
      rcases hneg with h | h <;> simp [h]
    constructor
    · intro sku hsku hne
      unfold conflict409Error
      rw [if_neg (by rw [hcond]; simp), hsku]
      simp only [Option.getD_some]
      rw [if_neg (by simpa [List.isEmpty_iff] using hne)]
    · intro hsku
      unfold conflict409Error
      rw [if_neg (by rw [hcond]; simp)]
      rcases hsku with h | h <;> rw [h]
      rfl

/-- Witness for C5 at a concrete unique-index-violation message. -/
theorem conflict_409_classification_witness :
    handle_cosmos_error (.http (some 409) (strToCodes "Unique index constraint violation on /sku"))
        (strToCodes "create") ({ sku := some (strToCodes "TST-1") } : ErrorContext) =
      some (.productDuplicateSKU (skuExistsMsg (strToCodes "TST-1"))) :=
  (conflict_409_classification
      (.http (some 409) (strToCodes "Unique index constraint violation on /sku"))
      (strToCodes "create") (strToCodes "Unique index constraint violation on /sku")
      { sku := some (strToCodes "TST-1") }
      (Or.inl rfl) (Or.inl rfl)).1 rfl rfl

/-- **C6.**  `handle_cosmos_error` never returns normally: on every
exception, operation, and context its embedding produces a raised error;
a non-storage exception becomes `DatabaseError` with the original
exception as cause, and so does any HTTP status/operation pair matching no
specific rule and any batch error whose status is not 409. -/
theorem handle_cosmos_error_always_raises :
    (∀ (e : CosmosException) (operation : PyStr) (ctx : ErrorContext),
      (handle_cosmos_error e operation ctx).isSome = true) ∧
    (∀ (m operation : PyStr) (ctx : ErrorContext),
      handle_cosmos_error (.other m) operation ctx =
        some (.databaseError (unexpectedErrorMsg operation) (some (.other m)))) ∧
    (∀ (sc : Option Nat) (m operation : PyStr) (ctx : ErrorContext),
      ¬(sc = some 404 ∧
        [strToCodes "update", strToCodes "delete", strToCodes "get"].contains operation = true) →
      ¬(sc = some 409 ∧
        [strToCodes "create", strToCodes "update"].contains operation = true) →
      ¬(sc = some 412 ∧ operation = strToCodes "update") →
      handle_cosmos_error (.http sc m) operation ctx =
        some (.databaseError (cosmosDefaultMsg operation sc m) (some (.http sc m)))) ∧
    (∀ (sc : Option Nat) (m operation : PyStr) (ctx : ErrorContext),
      sc ≠ some 409 →
      handle_cosmos_error (.batch sc m) operation ctx =
        some (.databaseError (batchErrorMsg operation m) (some (.batch sc m)))) := by
  refine ⟨?_, fun m operation ctx => rfl, ?_, ?_⟩
  · intro e operation ctx
    cases e <;> simp only [handle_cosmos_error] <;> (repeat' split) <;> rfl
  · intro sc m operation ctx h404 h409 h412
    simp only [handle_cosmos_error]
    by_cases hc4 : sc == some 404
    · rw [if_pos hc4]
      rw [if_neg fun hcon => h404 ⟨by simpa using hc4, hcon⟩]
    · rw [if_neg hc4]
      by_cases hc9 : sc == some 409
      · rw [if_pos hc9]
        rw [if_neg fun hcon => h409 ⟨by simpa using hc9, hcon⟩]
      · rw [if_neg hc9]
        by_cases hc12 : sc == some 412
        · rw [if_pos hc12]
          rw [if_neg fun hcon => h412 ⟨by simpa using hc12, by simpa using hcon⟩]
        · rw [if_neg hc12]
  · intro sc m operation ctx h
    simp only [handle_cosmos_error]
    rw [if_neg (by simpa using h)]

/-- Witness for C6 at a concrete unrecognized status (500 on create). -/
theorem handle_cosmos_error_always_raises_witness :
    handle_cosmos_error (.http (some 500) (strToCodes "boom"))
        (strToCodes "create") ({} : ErrorContext) =
      some (.databaseError
        (cosmosDefaultMsg (strToCodes "create") (some 500) (strToCodes "boom"))
        (some (.http (some 500) (strToCodes "boom")))) :=
  handle_cosmos_error_always_raises.2.2.1 (some 500) (strToCodes "boom")
    (strToCodes "create") {} (by decide) (by decide) (by decide)

/-- **C8** (claim is right, code is wrong).  The error taxonomy of
`exceptions.py` contains no connection-error variant at all, and a
transport-layer failure (a non-Cosmos exception such as
`ServiceRequestError`) is translated to the generic `DatabaseError`:
evaluating the translator at the exact network failure the repository's
own test (`test_create_network_error_maps_to_db_connection`, which
imports the nonexistent `DatabaseConnectionError` from
`inventory_api.exceptions`) exercises yields `DatabaseError`. -/
theorem transport_failure_maps_to_database_error :
    handle_cosmos_error
        (.other (strToCodes "nodename nor servname provided, or not known"))
        (strToCodes "create") ({} : ErrorContext) =
      some (.databaseError
        (unexpectedErrorMsg (strToCodes "create"))
        (some (.other (strToCodes "nodename nor servname provided, or not known")))) := rfl

/-! ## Claim C1: `_execute_batch_by_category`

The helper creates one `asyncio` task per partition, awaits them all with
`asyncio.gather(..., return_exceptions=True)`, and then runs a pure
aggregation loop over the completed outcomes.  The embedding models each
partition task as a deterministic outcome (`Except E (List R)`: the list
the task returns, or the exception it raises); `gather` with
`return_exceptions=True` delivers exactly the list of all outcomes in task
submission order, which is what the aggregation below consumes.  All
in-repository callers pass `result_extractor=None` and processors that
return lists, so the `result_extractor` branch and the
`isinstance(result, list)` test (always true here) are resolved by the
embedding's types. -/

/-- The body of the `for result in results:` aggregation loop: an
exception outcome is appended to `exceptions`, a successful list outcome
is appended (`extend`) to `all_results`. -/
def gatherStep {E R : Type} (acc : List R × List E) (result : Except E (List R)) :
    List R × List E :=
  match result with
  | .error e => (acc.1, acc.2 ++ [e])
  | .ok r => (acc.1 ++ r, acc.2)

/-- `product_crud_batch._execute_batch_by_category` (also re-exported as
`execute_batch_by_category`): run one task per category, collect every
task's outcome, flatten the successes, and re-raise the first collected
exception if any task raised. -/
def _execute_batch_by_category {T E R : Type}
    (items_by_category : List (PyStr × List T))
    (process_func : PyStr → List T → Except E (List R)) : Except E (List R) :=
  let results := items_by_category.map fun g => process_func g.1 g.2
  let acc := results.foldl gatherStep ([], [])
  match acc.2 with
  | [] => .ok acc.1
  | e :: _ => .error e

/-- The result list of a successful partition task (spec side). -/
def taskSuccess {E R : Type} : Except E (List R) → Option (List R)
  | .ok r => some r
  | .error _ => none

/-- The exception raised by a failed partition task (spec side). -/
def taskFailure {E R : Type} : Except E (List R) → Option E
  | .error e => some e
  | .ok _ => none

theorem foldl_gatherStep {E R : Type} (outcomes : List (Except E (List R)))
    (a : List R) (b : List E) :
    outcomes.foldl gatherStep (a, b) =
      (a ++ (outcomes.filterMap taskSuccess).flatten,
       b ++ outcomes.filterMap taskFailure) := by
  induction outcomes generalizing a b with
  | nil => simp
  | cons x rest ih =>
    cases x with
    | ok r =>
      simp only [List.foldl_cons, gatherStep, List.filterMap_cons, taskSuccess,
        taskFailure, List.flatten_cons, ih, List.append_assoc]
    | error e =>
      simp only [List.foldl_cons, gatherStep, List.filterMap_cons, taskSuccess,
        taskFailure, ih, List.append_assoc, List.singleton_append]

/-- **C1.**  For every mapping of partition keys to (non-empty) item
lists, the fan-out helper's result is fully determined by the list of all
partition outcomes in task submission order: if no partition raised, it
returns the concatenation of every partition's result list; if any
partition raised, it raises the *first* failure in submission order — and
that failure is selected only after the whole outcome list (including the
outcomes of partitions that come later than the failing one) has been
collected, so no partition's batch is preempted by another's failure. -/
theorem execute_batch_by_category_gathers {T E R : Type}
    (items_by_category : List (PyStr × List T))
    (process_func : PyStr → List T → Except E (List R))
    (hne : ∀ g ∈ items_by_category, g.2 ≠ []) :
    _execute_batch_by_category items_by_category process_func =
      (let outcomes := items_by_category.map fun g => process_func g.1 g.2
       match (outcomes.filterMap taskFailure).head? with
       | some e => .error e
       | none => .ok (outcomes.filterMap taskSuccess).flatten) := by
  unfold _execute_batch_by_category
  simp only [foldl_gatherStep, List.nil_append]
  cases h : ((items_by_category.map fun g => process_func g.1 g.2).filterMap taskFailure) with
  | nil => simp [h]
  | cons e rest => simp [h]

/-- Witness for C1: two partitions, the first succeeding with `[10]`, the
second raising `7`; the helper observes both outcomes and re-raises the
failure. -/
theorem execute_batch_by_category_witness :
    _execute_batch_by_category [(strToCodes "a", [1]), (strToCodes "b", [2])]
        (fun c _ => if c == strToCodes "a" then Except.ok [10] else Except.error 7) =
      Except.error 7 :=
  (execute_batch_by_category_gathers
      [(strToCodes "a", [1]), (strToCodes "b", [2])]
      (fun c _ => if c == strToCodes "a" then Except.ok [10] else Except.error 7)
      (by decide)).trans rfl

/-! ## Claims C7 and C9: batch operation construction -/

/-- Python dict assignment `d[k] = v`: replace the value in place when the
key is present (its position is kept), append the new entry otherwise. -/
def dictSet (d : PyDict) (k : PyStr) (v : PyVal) : PyDict :=
  if d.any fun kv => kv.1 == k then
    d.map fun kv => if kv.1 == k then (kv.1, v) else kv
  else
    d ++ [(k, v)]

/-- Python dict lookup `d.get(k)`: the value of the first (and, for dicts,
only) entry with key `k`. -/
def dictGet (d : PyDict) (k : PyStr) : Option PyVal :=
  (d.find? fun kv => kv.1 == k).map fun kv => kv.2

/-- One JSON-patch entry `{"op": "set", "path": f"/{key}", "value": value}`. -/
structure PatchOperation : Type where
  op : PyStr
  path : PyStr
  value : PyVal

/-- One entry of `batch_operations_for_db`: the `(operation-kind, args,
kwargs)` tuples the batch functions build. -/
inductive BatchOperation : Type where
  | create (data : PyDict)
  | patch (item_id : PyStr) (ops : List PatchOperation) (if_match_etag : PyStr)
  | delete (item_id : PyStr)

/-- The patch-op construction loop shared by `update_product` and the
batch update: one `set` operation per entry of the update dict whose key
is not `id`, `category`, or `_etag`. -/
def buildJsonPatchOps (update_dict : PyDict) : List PatchOperation :=
  (update_dict.filter fun kv =>
      !([strToCodes "id", strToCodes "category", strToCodes "_etag"].contains kv.1)).map
    fun kv => ⟨strToCodes "set", strToCodes "/" ++ kv.1, kv.2⟩

/-- One item of a `ProductBatchUpdate`, as `update_products` consumes it:
its id, its etag, and `changes.model_dump(exclude_unset=True)`. -/
structure BatchUpdateItem : Type where
  item_id : PyStr
  etag : PyStr
  changes : PyDict

/-- The per-item pipeline of `process_category_updates`: add the
server-set `last_updated` stamp to the change dict, convert decimals, and
build the JSON patch operations. -/
def update_item_patch_ops (now : PyStr) (item : BatchUpdateItem) : List PatchOperation :=
  buildJsonPatchOps
    (prepare_decimals_for_cosmos_db
      (dictSet item.changes (strToCodes "last_updated") (.str now)))

/-- The loop of `process_category_updates` that builds
`batch_operations_for_db`: an item whose patch-op list is empty is skipped
(with a warning), any other item contributes one `patch` tuple carrying
its id, its ops, and its etag as `if_match_etag`. -/
def build_update_batch_operations (now : PyStr) (items : List BatchUpdateItem) :
    List BatchOperation :=
  items.foldl
    (fun acc item =>
      let ops := update_item_patch_ops now item
      if ops.isEmpty then acc
      else acc ++ [.patch item.item_id ops item.etag])
    []

theorem mem_dictSet_self (d : PyDict) (k : PyStr) (v : PyVal) :
    (k, v) ∈ dictSet d k v := by
  unfold dictSet
  split
  · rename_i h
    rcases List.any_eq_true.1 h with ⟨kv, hkv, hbeq⟩
    have : (kv.1, v) ∈ d.map fun kv => if kv.1 == k then (kv.1, v) else kv := by
      refine List.mem_map.2 ⟨kv, hkv, ?_⟩
      rw [if_pos hbeq]
    rwa [show kv.1 = k from by simpa using hbeq] at this
  · exact List.mem_append_right _ (List.mem_singleton.2 rfl)

theorem mem_prepare_of_mem (d : PyDict) (k : PyStr) (v : PyVal)
    (h : (k, v) ∈ d) :
    (k, transformDictValue v) ∈ prepare_decimals_for_cosmos_db d := by
  induction d with
  | nil => cases h
  | cons kv rest ih =>
    obtain ⟨k', v'⟩ := kv
    rcases List.mem_cons.1 h with heq | hmem
    · rw [prepare_decimals_for_cosmos_db]
      cases heq
      exact List.mem_cons_self _ _
    · rw [prepare_decimals_for_cosmos_db]
      exact List.mem_cons_of_mem _ (ih hmem)

theorem update_item_patch_ops_ne_nil (now : PyStr) (item : BatchUpdateItem) :
    update_item_patch_ops now item ≠ [] := by
  unfold update_item_patch_ops
  have h1 : (strToCodes "last_updated", PyVal.str now) ∈
      dictSet item.changes (strToCodes "last_updated") (.str now) :=
    mem_dictSet_self _ _ _
  have h2 : (strToCodes "last_updated", PyVal.str now) ∈
      prepare_decimals_for_cosmos_db
        (dictSet item.changes (strToCodes "last_updated") (.str now)) :=
    mem_prepare_of_mem _ _ _ h1
  have h3 : (strToCodes "last_updated", PyVal.str now) ∈
      (prepare_decimals_for_cosmos_db
          (dictSet item.changes (strToCodes "last_updated") (.str now))).filter
        fun kv =>
          !([strToCodes "id", strToCodes "category", strToCodes "_etag"].contains kv.1) :=
    List.mem_filter.2 ⟨h2, by
      show (!([strToCodes "id", strToCodes "category",
        strToCodes "_etag"].contains (strToCodes "last_updated"))) = true
      decide⟩
  exact List.ne_nil_of_mem (List.mem_map.2 ⟨_, h3, rfl⟩)

theorem build_update_foldl (now : PyStr) (items : List BatchUpdateItem)
    (acc : List BatchOperation) :
    items.foldl
        (fun acc item =>
          let ops := update_item_patch_ops now item
          if ops.isEmpty then acc
          else acc ++ [.patch item.item_id ops item.etag])
        acc =
      acc ++ items.map fun item =>
        .patch item.item_id (update_item_patch_ops now item) item.etag := by
  induction items generalizing acc with
  | nil => simp
  | cons item rest ih =>
    have hne : (update_item_patch_ops now item).isEmpty = false := by
      simpa [List.isEmpty_iff] using update_item_patch_ops_ne_nil now item
    simp only [List.foldl_cons, hne, Bool.false_eq_true, if_false, ih,
      List.map_cons, List.append_assoc, List.singleton_append]

/-- **C7, counterexample.**  An item whose change-set produces zero
client-visible changes is *not* skipped: because the server-set
`last_updated` stamp is added to every change dict before the patch
operations are built, an item with an empty change-set is submitted with a
single `set /last_updated` operation, so the batch operation list is not
restricted to items with at least one changed field. -/
theorem empty_changeset_item_is_submitted :
    build_update_batch_operations (strToCodes "2024-01-01T00:00:00+00:00")
        [⟨strToCodes "p1", strToCodes "W/xyz", []⟩] =
      [.patch (strToCodes "p1")
        [⟨strToCodes "set", strToCodes "/last_updated",
          .str (strToCodes "2024-01-01T00:00:00+00:00")⟩]
        (strToCodes "W/xyz")] := rfl

/-- **C7, amended.**  In batch update no input item is ever skipped: the
unconditional `last_updated` stamp guarantees every item's patch-op list
is non-empty, so the skip-with-warning branch for zero patch operations is
unreachable, every item contributes exactly one `patch` entry (in input
order, carrying its id, its ops, and its etag), and a partition with at
least one item always issues its batch call. -/
theorem update_batch_never_skips (now : PyStr) (items : List BatchUpdateItem) :
    (∀ item ∈ items, update_item_patch_ops now item ≠ []) ∧
    build_update_batch_operations now items =
      (items.map fun item =>
        .patch item.item_id (update_item_patch_ops now item) item.etag) ∧
    (build_update_batch_operations now items).length = items.length ∧
    (items ≠ [] → build_update_batch_operations now items ≠ []) := by
  have hbuild : build_update_batch_operations now items =
      items.map fun item =>
        .patch item.item_id (update_item_patch_ops now item) item.etag := by
    unfold build_update_batch_operations
    simpa using build_update_foldl now items []
  refine ⟨fun item _ => update_item_patch_ops_ne_nil now item, hbuild, ?_, ?_⟩
  · rw [hbuild, List.length_map]
  · intro hne hnil
    rw [hbuild] at hnil
    exact hne (List.map_eq_nil_iff.1 hnil)

/-- Witness for C7's amended theorem: a one-item partition (a genuine
quantity change) contributes its batch entry and the batch call is
issued. -/
theorem update_batch_never_skips_witness :
    build_update_batch_operations (strToCodes "ts")
        [⟨strToCodes "p2", strToCodes "W/abc", [(strToCodes "quantity", .int 5)]⟩] ≠ [] :=
  (update_batch_never_skips (strToCodes "ts")
      [⟨strToCodes "p2", strToCodes "W/abc", [(strToCodes "quantity", .int 5)]⟩]).2.2.2
    (by simp)

/-! ### Dictionary lemmas -/

theorem dictGet_dictSet_self (d : PyDict) (k : PyStr) (v : PyVal) :
    dictGet (dictSet d k v) k = some v := by
  unfold dictGet dictSet
  split
  · rename_i hany
    rw [List.find?_map]
    have hp : ((fun kv : PyStr × PyVal => kv.1 == k) ∘
        fun kv : PyStr × PyVal => if kv.1 == k then (kv.1, v) else kv) =
        fun kv : PyStr × PyVal => kv.1 == k := by
      funext kv
      by_cases hb : (kv.1 == k) = true
      · simp only [Function.comp, if_pos hb]
      · simp only [Function.comp, if_neg hb]
    rw [hp]
    rcases List.any_eq_true.1 hany with ⟨kv0, hkv0, hbeq⟩
    have hsome : (d.find? fun kv : PyStr × PyVal => kv.1 == k).isSome = true :=
      List.find?_isSome.2 ⟨kv0, hkv0, hbeq⟩
    obtain ⟨kv1, hkv1⟩ := Option.isSome_iff_exists.1 hsome
    have hp1 := List.find?_some hkv1
    rw [hkv1]
    simp only [] at hp1
    have hk : kv1.1 = k := by simpa using hp1
    simp [hk]
  · rename_i hany
    have hnone : (d.find? fun kv : PyStr × PyVal => kv.1 == k) = none := by
      rw [List.find?_eq_none]
      intro kv hkv hp
      exact hany (List.any_eq_true.2 ⟨kv, hkv, hp⟩)
    rw [List.find?_append, hnone, Option.none_or]
    simp

theorem dictGet_dictSet_ne (d : PyDict) (k k' : PyStr) (v : PyVal)
    (h : (k' == k) = false) :
    dictGet (dictSet d k v) k' = dictGet d k' := by
  unfold dictGet dictSet
  split
  · rw [List.find?_map]
    have hp : ((fun kv : PyStr × PyVal => kv.1 == k') ∘
        fun kv : PyStr × PyVal => if kv.1 == k then (kv.1, v) else kv) =
        fun kv : PyStr × PyVal => kv.1 == k' := by
      funext kv
      by_cases hb : (kv.1 == k) = true
      · simp only [Function.comp, if_pos hb]
      · simp only [Function.comp, if_neg hb]
    rw [hp]
    cases hf : d.find? fun kv : PyStr × PyVal => kv.1 == k' with
    | none => rfl
    | some kv1 =>
      have hp1 := List.find?_some hf
      simp only [] at hp1
      have hk1 : ¬kv1.1 = k := by
        have h1 : kv1.1 = k' := by simpa using hp1
        subst h1
        simpa using h
      simp [hk1]
  · rw [List.find?_append]
    have hlast : ([(k, v)].find? fun kv : PyStr × PyVal => kv.1 == k') = none := by
      have : (k == k') = false := by
        rcases Bool.eq_false_iff.1 h with _
        simp only [beq_eq_false_iff_ne] at h ⊢
        exact fun hkk => h hkk.symm
      simp [List.find?, this]
    rw [hlast, Option.or_none]

theorem prepare_eq_map (d : PyDict) :
    prepare_decimals_for_cosmos_db d =
      d.map fun kv => (kv.1, transformDictValue kv.2) := by
  induction d with
  | nil => rfl
  | cons kv rest ih =>
    obtain ⟨k, v⟩ := kv
    rw [prepare_decimals_for_cosmos_db, ih, List.map_cons]

theorem dictGet_prepare (d : PyDict) (k : PyStr) :
    dictGet (prepare_decimals_for_cosmos_db d) k =
      (dictGet d k).map transformDictValue := by
  unfold dictGet
  rw [prepare_eq_map, List.find?_map]
  have hp : ((fun kv : PyStr × PyVal => kv.1 == k) ∘
      fun kv : PyStr × PyVal => (kv.1, transformDictValue kv.2)) =
      fun kv : PyStr × PyVal => kv.1 == k := rfl
  rw [hp]
  cases d.find? fun kv : PyStr × PyVal => kv.1 == k <;> rfl

/-! ### Scalar-record lemmas -/

/-- Whether a value is a Python scalar (not a dict and not a list).  Every
field of a dumped `ProductCreate` model is a scalar. -/
def isScalarVal : PyVal → Bool
  | .dict _ => false
  | .list _ => false
  | _ => true

theorem listNotInList_of_scalar (v : PyVal) (h : isScalarVal v = true) :
    listNotInList v = true := by
  cases v <;> first
    | rfl
    | exact absurd h (by simp [isScalarVal])

theorem listNotInListDict_of_scalars (d : PyDict)
    (h : ∀ kv ∈ d, isScalarVal kv.2 = true) :
    listNotInListDict d = true := by
  induction d with
  | nil => rfl
  | cons kv rest ih =>
    obtain ⟨k, v⟩ := kv
    rw [listNotInListDict, Bool.and_eq_true]
    exact ⟨listNotInList_of_scalar v (h _ (List.mem_cons_self _ _)),
      ih fun kv hkv => h kv (List.mem_cons_of_mem _ hkv)⟩

theorem scalars_dictSet (d : PyDict) (k : PyStr) (v : PyVal)
    (hd : ∀ kv ∈ d, isScalarVal kv.2 = true) (hv : isScalarVal v = true) :
    ∀ kv ∈ dictSet d k v, isScalarVal kv.2 = true := by
  intro kv hkv
  unfold dictSet at hkv
  split at hkv
  · rcases List.mem_map.1 hkv with ⟨kv0, hkv0, rfl⟩
    split
    · exact hv
    · exact hd kv0 hkv0
  · rcases List.mem_append.1 hkv with hmem | hmem
    · exact hd kv hmem
    · rw [List.mem_singleton.1 hmem]
      exact hv

/-! ### The create-side stamping pipeline -/

/-- The stamping sequence shared verbatim by `product_crud.create_product`
and the loop body of `product_crud_batch.create_products` (and of
`product_batch_service.create_products`): starting from
`product.model_dump()`, set `data["id"]` to the freshly generated UUID,
`data["status"]` to `"active"`, `data["last_updated"]` to the current UTC
timestamp, replace `data["category"]` with its normalized form, and
convert decimals.  The `ValueError` that `normalize_category` raises on a
falsy category propagates (`Except.error`); a missing or non-string
`category` key, impossible for a validated model dump, is mapped to the
same error. -/
def stampForCreate (data : PyDict) (fresh_id now : PyStr) : Except PyStr PyDict :=
  let d1 := dictSet data (strToCodes "id") (.str fresh_id)
  let d2 := dictSet d1 (strToCodes "status") (.str (strToCodes "active"))
  let d3 := dictSet d2 (strToCodes "last_updated") (.str now)
  match dictGet d3 (strToCodes "category") with
  | some (.str c) =>
    match normalize_category c with
    | .ok nc =>
      .ok (prepare_decimals_for_cosmos_db (dictSet d3 (strToCodes "category") (.str nc)))
    | .error msg => .error msg
  | _ => .error (strToCodes "Category must be a non-empty string")

/-- The loop of `process_category_creates` that builds
`batch_operations_for_db`: every product dump is stamped and appended as a
`("create", (data,), {})` tuple; an exception raised while stamping any
item propagates out of the whole batch function. -/
def process_category_creates_ops :
    List (PyDict × PyStr × PyStr) → Except PyStr (List BatchOperation)
  | [] => .ok []
  | (data, fresh_id, now) :: rest =>
    match stampForCreate data fresh_id now with
    | .error msg => .error msg
    | .ok r =>
      match process_category_creates_ops rest with
      | .error msg => .error msg
      | .ok ops => .ok (.create r :: ops)

/-- What the claims assume of `product.model_dump()` for a validated
`ProductCreate`: it has a string `category` field `c`, non-empty (pydantic
enforces `min_length=1` after stripping), and all its values are scalars. -/
def createDumpOk (data : PyDict) (c : PyStr) : Prop :=
  dictGet data (strToCodes "category") = some (.str c) ∧ c ≠ [] ∧
    ∀ kv ∈ data, isScalarVal kv.2 = true

/-- C9's conclusion for a single stored record: fresh id, status
`"active"`, the server timestamp, the normalized category, and no decimal
anywhere. -/
def fullyStamped (r : PyDict) (fresh_id now c : PyStr) : Prop :=
  dictGet r (strToCodes "id") = some (.str fresh_id) ∧
  dictGet r (strToCodes "status") = some (.str (strToCodes "active")) ∧
  dictGet r (strToCodes "last_updated") = some (.str now) ∧
  dictGet r (strToCodes "category") = some (.str (pyStrip (pyLower c))) ∧
  containsDecimalDict r = false

theorem stampForCreate_ok (data : PyDict) (fresh_id now c : PyStr)
    (h : createDumpOk data c) :
    ∃ r, stampForCreate data fresh_id now = .ok r ∧ fullyStamped r fresh_id now c := by
  obtain ⟨hcat, hcne, hscal⟩ := h
  have hc3 : dictGet
      (dictSet (dictSet (dictSet data (strToCodes "id") (.str fresh_id))
        (strToCodes "status") (.str (strToCodes "active")))
        (strToCodes "last_updated") (.str now)) (strToCodes "category") =
      some (.str c) := by
    rw [dictGet_dictSet_ne _ _ _ _ (by decide), dictGet_dictSet_ne _ _ _ _ (by decide),
      dictGet_dictSet_ne _ _ _ _ (by decide), hcat]
  have hnorm : normalize_category c = .ok (pyStrip (pyLower c)) := by
    unfold normalize_category
    rw [if_neg (by simpa [List.isEmpty_iff] using hcne)]
  have hstamp : stampForCreate data fresh_id now =
      .ok (prepare_decimals_for_cosmos_db
        (dictSet (dictSet (dictSet (dictSet data (strToCodes "id") (.str fresh_id))
          (strToCodes "status") (.str (strToCodes "active")))
          (strToCodes "last_updated") (.str now))
          (strToCodes "category") (.str (pyStrip (pyLower c))))) := by
    simp only [stampForCreate]
    rw [hc3]
    simp only [hnorm]
  refine ⟨_, hstamp, ?_, ?_, ?_, ?_, ?_⟩
  · rw [dictGet_prepare, dictGet_dictSet_ne _ _ _ _ (by decide),
      dictGet_dictSet_ne _ _ _ _ (by decide), dictGet_dictSet_ne _ _ _ _ (by decide),
      dictGet_dictSet_self]
    rfl
  · rw [dictGet_prepare, dictGet_dictSet_ne _ _ _ _ (by decide),
      dictGet_dictSet_ne _ _ _ _ (by decide), dictGet_dictSet_self]
    rfl
  · rw [dictGet_prepare, dictGet_dictSet_ne _ _ _ _ (by decide), dictGet_dictSet_self]
    rfl
  · rw [dictGet_prepare, dictGet_dictSet_self]
    rfl
  · apply prepare_noDecimal
    apply listNotInListDict_of_scalars
    apply scalars_dictSet
    · apply scalars_dictSet
      · apply scalars_dictSet
        · apply scalars_dictSet
          · exact hscal
          · rfl
        · rfl
      · rfl
    · rfl

/-- **C9.**  Every record a create operation submits to storage —
`create_product`'s single `create_item` body as well as every
`("create", (data,), {})` entry of a batch partition's operation list —
is fully stamped: it carries the freshly generated id, status `"active"`,
the server-set `last_updated` timestamp, the normalized (trimmed,
lower-cased) form of the client-supplied category, and no decimal-typed
value at any depth. -/
theorem create_records_fully_stamped :
    (∀ (data : PyDict) (fresh_id now c : PyStr), createDumpOk data c →
      ∃ r, stampForCreate data fresh_id now = .ok r ∧
        fullyStamped r fresh_id now c) ∧
    (∀ items : List (PyDict × PyStr × PyStr),
      (∀ it ∈ items, ∃ c, createDumpOk it.1 c) →
      ∃ ops, process_category_creates_ops items = .ok ops ∧
        List.Forall₂
          (fun (it : PyDict × PyStr × PyStr) (op : BatchOperation) =>
            ∃ r c, op = .create r ∧ createDumpOk it.1 c ∧
              fullyStamped r it.2.1 it.2.2 c)
          items ops) := by
  refine ⟨stampForCreate_ok, ?_⟩
  intro items h
  induction items with
  | nil => exact ⟨[], rfl, List.Forall₂.nil⟩
  | cons it rest ih =>
    obtain ⟨data, fresh_id, now⟩ := it
    obtain ⟨c, hc⟩ := h _ (List.mem_cons_self _ _)
    obtain ⟨r, hr, hst⟩ := stampForCreate_ok data fresh_id now c hc
    obtain ⟨ops, hops, hall⟩ := ih fun it hit => h it (List.mem_cons_of_mem _ hit)
    refine ⟨.create r :: ops, ?_, ?_⟩
    · rw [process_category_creates_ops, hr, hops]
    · exact List.Forall₂.cons ⟨r, c, rfl, hc, hst⟩ hall

/-- Witness for C9 at a concrete validated product dump. -/
theorem create_records_fully_stamped_witness :
    ∃ r, stampForCreate
        [(strToCodes "name", .str (strToCodes "Widget")),
         (strToCodes "description", .pynone),
         (strToCodes "category", .str (strToCodes " Gadgets ")),
         (strToCodes "price", .decimal (999 / 100)),
         (strToCodes "sku", .str (strToCodes "TST-1")),
         (strToCodes "quantity", .int 3),
         (strToCodes "status", .str (strToCodes "inactive"))]
        (strToCodes "uuid-1") (strToCodes "2024-01-01T00:00:00+00:00") = .ok r ∧
      fullyStamped r (strToCodes "uuid-1") (strToCodes "2024-01-01T00:00:00+00:00")
        (strToCodes " Gadgets ") :=
  create_records_fully_stamped.1 _ _ _ _ ⟨rfl, by decide, by decide⟩

end InventoryApi
